import Mathlib

/-!
Verification of the appointment-booking core.

Shallow embedding of the double-booking-prevention core of the
`friendly-greeting` scheduling application:

* the `appointments` table rows and their status lifecycle
  (migration `supabase/migrations/...e8f3...sql`, statuses
  `scheduled / completed / cancelled / no_show`);
* the partial unique index
  `appointments_professional_date_time_active_unique` on
  `(professional_id, date, time) WHERE status != 'cancelled'`
  (migration in `unnamed/part_000`), modelled as the storage layer's
  atomic admission check on inserts and status updates;
* the `get-booked-slots` serverless function
  (`supabase/functions/get-booked-slots/index.ts`);
* the client booking flow `handleBook` / `fetchBookedSlots` of
  `TimeSelector` (`unnamed/part_003` and
  `src/components/user/TimeSelector.tsx`).
-/

namespace FriendlyGreeting

/-- Appointment status, from the check constraint
`status IN ('scheduled', 'completed', 'cancelled', 'no_show')`. -/
inductive Status
  | scheduled
  | completed
  | cancelled
  | noShow
deriving DecidableEq, Repr

/-- `true` exactly on `'cancelled'`. -/
def isCancelled : Status → Bool
  | Status.cancelled => true
  | _ => false

/-- One row of the `appointments` table.  Only the columns the booking
core touches are kept; `id` is the primary key (cancellation metadata,
`notes` and timestamps play no role in any claim). -/
structure Appointment where
  id : Nat
  userId : String
  professionalId : String
  procedure : String
  date : String
  time : String
  status : Status
deriving DecidableEq, Repr

/-- The row is counted by the partial index (`WHERE status != 'cancelled'`). -/
def isActive (a : Appointment) : Bool := !isCancelled a.status

/-- The `appointments` table contents. -/
abbrev Registry := List Appointment

/-- Some row with `status != 'cancelled'` already occupies
`(professional_id, date, time)` — the condition under which the partial
unique index rejects a new active row for that slot. -/
def slotTaken (r : Registry) (p d t : String) : Bool :=
  r.any fun a => a.professionalId == p && a.date == d && a.time == t && isActive a

/-- A storage-layer error as surfaced by the client: an error code and a
message (the supabase client exposes `error.code` / `error.message`). -/
structure DbError where
  code : String
  message : String
deriving DecidableEq, Repr

/-- The Postgres unique-constraint violation raised when an insert or
update collides with `appointments_professional_date_time_active_unique`
(SQLSTATE 23505). -/
def uniqueViolation : DbError :=
  { code := "23505"
    message := "duplicate key value violates unique constraint \"appointments_professional_date_time_active_unique\"" }

/-- Error for an UPDATE whose target row id matches nothing. -/
def rowNotFound : DbError :=
  { code := "404", message := "appointment not found" }

/-- The booking request fields (§6 of the spec; `user_id` is taken from
the authenticated session, `status` is the column default `'scheduled'`). -/
structure BookingRequest where
  userId : String
  professionalId : String
  procedure : String
  date : String
  time : String
deriving DecidableEq, Repr

/-- The row a successful Booking Transaction creates: the requested slot
with the `status` column default `'scheduled'` and a fresh primary key. -/
def mkAppointment (nextId : Nat) (req : BookingRequest) : Appointment :=
  { id := nextId
    userId := req.userId
    professionalId := req.professionalId
    procedure := req.procedure
    date := req.date
    time := req.time
    status := Status.scheduled }

/-- The Booking Transaction's single INSERT as arbitrated atomically by
the storage engine: the partial unique index admits the new active row
iff no active row already occupies `(professional_id, date, time)`;
otherwise the statement fails with SQLSTATE 23505. -/
def insertAppointment (r : Registry) (nextId : Nat) (req : BookingRequest) :
    Except DbError (Appointment × Registry) :=
  if slotTaken r req.professionalId req.date req.time then
    Except.error uniqueViolation
  else
    Except.ok (mkAppointment nextId req, mkAppointment nextId req :: r)

/-- `UPDATE appointments SET status = s WHERE id = id` applied to one row. -/
def setRowStatus (id : Nat) (s : Status) (b : Appointment) : Appointment :=
  if b.id == id then { b with status := s } else b

/-- Some row other than `id` actively occupies `(p, d, t)` — the
condition under which re-indexing an updated row violates the partial
unique index. -/
def otherActiveAtSlot (r : Registry) (id : Nat) (p d t : String) : Bool :=
  r.any fun b => b.id != id && b.professionalId == p && b.date == d && b.time == t && isActive b

/-- A status UPDATE (`ApiClient.updateAppointmentStatus` /
`ApiClient.cancelAppointment`, `src/lib/api.ts`) as checked by the
storage engine: when the new row version is active it must re-enter the
partial unique index, which fails with 23505 if another active row holds
the same slot; a cancelled new version leaves the index. -/
def updateStatus (r : Registry) (id : Nat) (s : Status) : Except DbError Registry :=
  match r.find? (fun a => a.id == id) with
  | none => Except.error rowNotFound
  | some a =>
    if !isCancelled s && otherActiveAtSlot r id a.professionalId a.date a.time then
      Except.error uniqueViolation
    else
      Except.ok (r.map (setRowStatus id s))

/-- `PATCH /appointments/:id/cancel` (`ApiClient.cancelAppointment`):
sets the row's status to `'cancelled'` (cancellation metadata omitted). -/
def cancelAppointment (r : Registry) (id : Nat) : Except DbError Registry :=
  updateStatus r id Status.cancelled

/-- The registry mutations of the booking core. -/
inductive Op
  | book (req : BookingRequest)
  | setStatus (id : Nat) (s : Status)

/-- Registry state: table contents plus the next fresh primary key. -/
abbrev RegState := Registry × Nat

/-- One storage round-trip; a failed statement leaves the table unchanged. -/
def applyOp (st : RegState) : Op → RegState
  | Op.book req =>
    match insertAppointment st.1 st.2 req with
    | Except.ok (_, r) => (r, st.2 + 1)
    | Except.error _ => st
  | Op.setStatus id s =>
    match updateStatus st.1 id s with
    | Except.ok r => (r, st.2)
    | Except.error _ => st

/-- A sequence of storage round-trips. -/
def applyOps (st : RegState) (ops : List Op) : RegState :=
  ops.foldl applyOp st

/-- The §3 invariant: at most one active appointment per
`(professional, date, time)` — any two active rows on the same slot have
the same primary key. -/
def uniqueActive (r : Registry) : Prop :=
  ∀ a ∈ r, ∀ b ∈ r, isActive a = true → isActive b = true →
    a.professionalId = b.professionalId → a.date = b.date → a.time = b.time → a.id = b.id

/-- Primary keys are pairwise distinct (the `id UUID PRIMARY KEY`). -/
def idsNodup (r : Registry) : Prop := (r.map Appointment.id).Nodup

/-- Every stored primary key is below the fresh-key counter. -/
def idFresh (r : Registry) (n : Nat) : Prop := ∀ a ∈ r, a.id < n

/-- Well-formed registry state: the §3 uniqueness invariant together
with primary-key uniqueness and freshness. -/
def Wf (st : RegState) : Prop :=
  uniqueActive st.1 ∧ idsNodup st.1 ∧ idFresh st.1 st.2

instance (r : Registry) : Decidable (uniqueActive r) := by
  unfold uniqueActive; infer_instance

instance (r : Registry) : Decidable (idsNodup r) := by
  unfold idsNodup; infer_instance

instance (r : Registry) (n : Nat) : Decidable (idFresh r n) := by
  unfold idFresh; infer_instance

instance (st : RegState) : Decidable (Wf st) := by
  unfold Wf; infer_instance

/-- `pat` is an initial segment of `s` (character lists). -/
def leadsWith : List Char → List Char → Bool
  | [], _ => true
  | _ :: _, [] => false
  | p :: ps, c :: cs => p == c && leadsWith ps cs

/-- `pat` occurs as a contiguous subsequence of `s` (character lists). -/
def containsSeq (pat : List Char) : List Char → Bool
  | [] => leadsWith pat []
  | c :: cs => leadsWith pat (c :: cs) || containsSeq pat cs

/-- JavaScript's `s.includes(pat)`. -/
def strIncludes (s pat : String) : Bool := containsSeq pat.data s.data

/-- Decidable equality of operation results, for concrete evaluation. -/
def exceptDecEq {ε α : Type} [DecidableEq ε] [DecidableEq α] :
    (x y : Except ε α) → Decidable (x = y)
  | Except.ok a, Except.ok b =>
    if h : a = b then isTrue (by rw [h]) else isFalse (by simp [h])
  | Except.ok _, Except.error _ => isFalse (by simp)
  | Except.error _, Except.ok _ => isFalse (by simp)
  | Except.error e, Except.error f =>
    if h : e = f then isTrue (by rw [h]) else isFalse (by simp [h])

instance {ε α : Type} [DecidableEq ε] [DecidableEq α] : DecidableEq (Except ε α) :=
  exceptDecEq

/-! ## Helper lemmas about the registry operations -/

@[simp]
theorem setRowStatus_id (id : Nat) (s : Status) (b : Appointment) :
    (setRowStatus id s b).id = b.id := by
  unfold setRowStatus; split <;> rfl

@[simp]
theorem setRowStatus_professionalId (id : Nat) (s : Status) (b : Appointment) :
    (setRowStatus id s b).professionalId = b.professionalId := by
  unfold setRowStatus; split <;> rfl

@[simp]
theorem setRowStatus_date (id : Nat) (s : Status) (b : Appointment) :
    (setRowStatus id s b).date = b.date := by
  unfold setRowStatus; split <;> rfl

@[simp]
theorem setRowStatus_time (id : Nat) (s : Status) (b : Appointment) :
    (setRowStatus id s b).time = b.time := by
  unfold setRowStatus; split <;> rfl

theorem setRowStatus_of_eq (id : Nat) (s : Status) (b : Appointment) (h : b.id = id) :
    setRowStatus id s b = { b with status := s } := by
  unfold setRowStatus; simp [h]

theorem setRowStatus_of_ne (id : Nat) (s : Status) (b : Appointment) (h : ¬b.id = id) :
    setRowStatus id s b = b := by
  unfold setRowStatus; simp [h]

theorem isActive_iff (a : Appointment) :
    isActive a = true ↔ a.status ≠ Status.cancelled := by
  unfold isActive isCancelled
  cases a.status <;> simp

theorem slotTaken_true_iff (r : Registry) (p d t : String) :
    slotTaken r p d t = true ↔
      ∃ a ∈ r, a.professionalId = p ∧ a.date = d ∧ a.time = t ∧ isActive a = true := by
  unfold slotTaken
  simp [List.any_eq_true, Bool.and_eq_true, and_assoc]

theorem slotTaken_false_iff (r : Registry) (p d t : String) :
    slotTaken r p d t = false ↔
      ∀ a ∈ r, a.professionalId = p → a.date = d → a.time = t → isActive a = false := by
  rw [Bool.eq_false_iff, Ne, slotTaken_true_iff]
  constructor
  · intro h a ha hp hd ht
    by_contra hact
    exact h ⟨a, ha, hp, hd, ht, Bool.not_eq_false _ ▸ hact⟩
  · rintro h ⟨a, ha, hp, hd, ht, hact⟩
    rw [h a ha hp hd ht] at hact
    exact Bool.false_ne_true hact

theorem otherActiveAtSlot_true_iff (r : Registry) (id : Nat) (p d t : String) :
    otherActiveAtSlot r id p d t = true ↔
      ∃ b ∈ r, b.id ≠ id ∧ b.professionalId = p ∧ b.date = d ∧ b.time = t ∧
        isActive b = true := by
  unfold otherActiveAtSlot
  simp [List.any_eq_true, Bool.and_eq_true, and_assoc]

/-- Distinct primary keys make rows with equal keys equal as rows. -/
theorem mem_id_inj (r : Registry) (hnd : idsNodup r) :
    ∀ a ∈ r, ∀ b ∈ r, a.id = b.id → a = b := by
  induction r with
  | nil => intro a ha; exact absurd ha (List.not_mem_nil a)
  | cons x xs ih =>
    have hx : x.id ∉ xs.map Appointment.id ∧ (xs.map Appointment.id).Nodup :=
      List.nodup_cons.mp hnd
    intro a ha b hb hab
    rcases List.mem_cons.mp ha with rfl | ha' <;>
      rcases List.mem_cons.mp hb with rfl | hb'
    · rfl
    · exact absurd (hab ▸ List.mem_map_of_mem Appointment.id hb') hx.1
    · exact absurd (hab ▸ List.mem_map_of_mem Appointment.id ha') hx.1
    · exact ih hx.2 a ha' b hb' hab

/-- With distinct primary keys, looking a member up by its key finds it. -/
theorem find_by_id (r : Registry) (hnd : idsNodup r) (a : Appointment) (ha : a ∈ r) :
    r.find? (fun b => b.id == a.id) = some a := by
  induction r with
  | nil => exact absurd ha (List.not_mem_nil a)
  | cons x xs ih =>
    have hx : x.id ∉ xs.map Appointment.id ∧ (xs.map Appointment.id).Nodup :=
      List.nodup_cons.mp hnd
    by_cases hid : x.id = a.id
    · have hxa : x = a := by
        rcases List.mem_cons.mp ha with rfl | ha'
        · rfl
        · exact absurd (hid ▸ List.mem_map_of_mem Appointment.id ha') hx.1
      simp [List.find?_cons, hid, hxa]
    · have ha' : a ∈ xs := by
        rcases List.mem_cons.mp ha with rfl | ha'
        · exact absurd rfl hid
        · exact ha'
      have : (x.id == a.id) = false := by simp [hid]
      simp [List.find?_cons, this, ih hx.2 ha']

/-- Status updates keep the key column of every row. -/
theorem map_setRowStatus_ids (r : Registry) (id : Nat) (s : Status) :
    (r.map (setRowStatus id s)).map Appointment.id = r.map Appointment.id := by
  induction r with
  | nil => rfl
  | cons x xs ih => simp [ih]

theorem isActive_setRowStatus (id : Nat) (s : Status) (x : Appointment) :
    isActive (setRowStatus id s x) =
      if x.id = id then !isCancelled s else isActive x := by
  unfold setRowStatus
  by_cases h : x.id = id <;> simp [h, isActive]

theorem insertAppointment_ok (r : Registry) (n : Nat) (req : BookingRequest)
    (h : slotTaken r req.professionalId req.date req.time = false) :
    insertAppointment r n req =
      Except.ok (mkAppointment n req, mkAppointment n req :: r) := by
  unfold insertAppointment; simp [h]

theorem insertAppointment_conflict (r : Registry) (n : Nat) (req : BookingRequest)
    (h : slotTaken r req.professionalId req.date req.time = true) :
    insertAppointment r n req = Except.error uniqueViolation := by
  unfold insertAppointment; simp [h]

/-- An admitted insert preserves the §3 uniqueness invariant: the new
row is the only active row on its slot. -/
theorem uniqueActive_insert (r : Registry) (hu : uniqueActive r) (n : Nat)
    (req : BookingRequest)
    (h : slotTaken r req.professionalId req.date req.time = false) :
    uniqueActive (mkAppointment n req :: r) := by
  have hfree := (slotTaken_false_iff r _ _ _).mp h
  intro a ha b hb hact hbact hp hd ht
  rcases List.mem_cons.mp ha with rfl | ha' <;> rcases List.mem_cons.mp hb with rfl | hb'
  · rfl
  · exfalso
    simp only [mkAppointment] at hp hd ht
    rw [hfree b hb' hp.symm hd.symm ht.symm] at hbact
    exact Bool.false_ne_true hbact
  · exfalso
    simp only [mkAppointment] at hp hd ht
    rw [hfree a ha' hp hd ht] at hact
    exact Bool.false_ne_true hact
  · exact hu a ha' b hb' hact hbact hp hd ht

/-- An admitted status update preserves the §3 uniqueness invariant. -/
theorem uniqueActive_update (r : Registry) (hu : uniqueActive r) (hnd : idsNodup r)
    (id : Nat) (s : Status) (a : Appointment) (hamem : a ∈ r) (haid : a.id = id)
    (hguard : (!isCancelled s &&
        otherActiveAtSlot r id a.professionalId a.date a.time) = false) :
    uniqueActive (r.map (setRowStatus id s)) := by
  intro x' hx' y' hy' hxact hyact hp hd ht
  obtain ⟨x, hx, rfl⟩ := List.mem_map.mp hx'
  obtain ⟨y, hy, rfl⟩ := List.mem_map.mp hy'
  simp only [setRowStatus_id, setRowStatus_professionalId, setRowStatus_date,
    setRowStatus_time] at hp hd ht ⊢
  rw [isActive_setRowStatus] at hxact hyact
  by_cases hcs : isCancelled s = true
  · have hx_id : ¬x.id = id := by
      intro hxe; rw [if_pos hxe, hcs] at hxact; exact Bool.false_ne_true hxact
    have hy_id : ¬y.id = id := by
      intro hye; rw [if_pos hye, hcs] at hyact; exact Bool.false_ne_true hyact
    rw [if_neg hx_id] at hxact
    rw [if_neg hy_id] at hyact
    exact hu x hx y hy hxact hyact hp hd ht
  · have hother : otherActiveAtSlot r id a.professionalId a.date a.time = false := by
      simpa [hcs] using hguard
    have hnone := (Bool.eq_false_iff.mp hother)
    by_cases hx_id : x.id = id <;> by_cases hy_id : y.id = id
    · rw [hx_id, hy_id]
    · exfalso
      have hxa : x = a := mem_id_inj r hnd x hx a hamem (hx_id.trans haid.symm)
      rw [if_neg hy_id] at hyact
      exact hnone ((otherActiveAtSlot_true_iff r id _ _ _).mpr
        ⟨y, hy, hy_id, by rw [← hp, hxa], by rw [← hd, hxa], by rw [← ht, hxa], hyact⟩)
    · exfalso
      have hya : y = a := mem_id_inj r hnd y hy a hamem (hy_id.trans haid.symm)
      rw [if_neg hx_id] at hxact
      exact hnone ((otherActiveAtSlot_true_iff r id _ _ _).mpr
        ⟨x, hx, hx_id, by rw [hp, hya], by rw [hd, hya], by rw [ht, hya], hxact⟩)
    · rw [if_neg hx_id] at hxact
      rw [if_neg hy_id] at hyact
      exact hu x hx y hy hxact hyact hp hd ht

theorem applyOp_book_eq (st : RegState) (req : BookingRequest) :
    applyOp st (Op.book req) =
      match insertAppointment st.1 st.2 req with
      | Except.ok (_, r) => (r, st.2 + 1)
      | Except.error _ => st := rfl

theorem applyOp_setStatus_eq (st : RegState) (id : Nat) (s : Status) :
    applyOp st (Op.setStatus id s) =
      match updateStatus st.1 id s with
      | Except.ok r => (r, st.2)
      | Except.error _ => st := rfl

theorem updateStatus_none (r : Registry) (id : Nat) (s : Status)
    (hfind : r.find? (fun b => b.id == id) = none) :
    updateStatus r id s = Except.error rowNotFound := by
  unfold updateStatus; rw [hfind]

theorem updateStatus_found (r : Registry) (id : Nat) (s : Status) (a : Appointment)
    (hfind : r.find? (fun b => b.id == id) = some a) :
    updateStatus r id s =
      if !isCancelled s && otherActiveAtSlot r id a.professionalId a.date a.time then
        Except.error uniqueViolation
      else Except.ok (r.map (setRowStatus id s)) := by
  unfold updateStatus; rw [hfind]

/-- Every single storage round-trip preserves well-formedness. -/
theorem wf_applyOp (st : RegState) (h : Wf st) (op : Op) : Wf (applyOp st op) := by
  obtain ⟨hu, hnd, hf⟩ := h
  cases op with
  | book req =>
    rw [applyOp_book_eq]
    by_cases hslot : slotTaken st.1 req.professionalId req.date req.time = true
    · rw [insertAppointment_conflict st.1 st.2 req hslot]
      exact ⟨hu, hnd, hf⟩
    · have hfalse : slotTaken st.1 req.professionalId req.date req.time = false :=
        Bool.not_eq_true _ ▸ hslot
      rw [insertAppointment_ok st.1 st.2 req hfalse]
      show Wf (mkAppointment st.2 req :: st.1, st.2 + 1)
      refine ⟨uniqueActive_insert st.1 hu st.2 req hfalse, ?_, ?_⟩
      · show (st.2 :: st.1.map Appointment.id).Nodup
        refine List.nodup_cons.mpr ⟨?_, hnd⟩
        intro hmem
        obtain ⟨a, ha, haid⟩ := List.mem_map.mp hmem
        exact absurd haid (Nat.ne_of_lt (hf a ha))
      · intro a ha
        rcases List.mem_cons.mp ha with rfl | ha'
        · exact Nat.lt_succ_self st.2
        · exact Nat.lt_succ_of_lt (hf a ha')
  | setStatus id s =>
    rw [applyOp_setStatus_eq]
    cases hfind : st.1.find? (fun a => a.id == id) with
    | none =>
      rw [updateStatus_none st.1 id s hfind]
      exact ⟨hu, hnd, hf⟩
    | some a =>
      have haid : a.id = id := by simpa using List.find?_some hfind
      have hamem : a ∈ st.1 := List.mem_of_find?_eq_some hfind
      rw [updateStatus_found st.1 id s a hfind]
      by_cases hguard : (!isCancelled s &&
          otherActiveAtSlot st.1 id a.professionalId a.date a.time) = true
      · rw [if_pos hguard]
        exact ⟨hu, hnd, hf⟩
      · have hguardf : (!isCancelled s &&
            otherActiveAtSlot st.1 id a.professionalId a.date a.time) = false :=
          Bool.not_eq_true _ ▸ hguard
        rw [if_neg hguard]
        show Wf (st.1.map (setRowStatus id s), st.2)
        refine ⟨uniqueActive_update st.1 hu hnd id s a hamem haid hguardf, ?_, ?_⟩
        · show ((st.1.map (setRowStatus id s)).map Appointment.id).Nodup
          rw [map_setRowStatus_ids]
          exact hnd
        · intro b hb
          obtain ⟨x, hx, rfl⟩ := List.mem_map.mp hb
          rw [setRowStatus_id]
          exact hf x hx

/-- Any sequence of storage round-trips preserves well-formedness. -/
theorem wf_applyOps (st : RegState) (h : Wf st) (ops : List Op) :
    Wf (applyOps st ops) := by
  induction ops generalizing st with
  | nil => exact h
  | cons op ops ih => exact ih (applyOp st op) (wf_applyOp st h op)

/-! ## Sequences of Booking Transaction attempts -/

/-- Run a sequence of Booking Transaction attempts (§5: the storage
layer serialises the inserts by commit order; each attempt sees the
registry left by the previous one) and collect each attempt's result. -/
def runBookings (st : RegState) :
    List BookingRequest → RegState × List (Except DbError Appointment)
  | [] => (st, [])
  | q :: qs =>
    match insertAppointment st.1 st.2 q with
    | Except.ok (a, r) =>
      ((runBookings (r, st.2 + 1) qs).1,
        Except.ok a :: (runBookings (r, st.2 + 1) qs).2)
    | Except.error e =>
      ((runBookings st qs).1, Except.error e :: (runBookings st qs).2)

def isOkResult : Except DbError Appointment → Bool
  | Except.ok _ => true
  | Except.error _ => false

/-- How many attempts of the sequence succeeded. -/
def successCount (rs : List (Except DbError Appointment)) : Nat :=
  (rs.filter isOkResult).length

theorem runBookings_nil (st : RegState) : runBookings st [] = (st, []) := rfl

theorem runBookings_cons (st : RegState) (q : BookingRequest)
    (qs : List BookingRequest) :
    runBookings st (q :: qs) =
      match insertAppointment st.1 st.2 q with
      | Except.ok (a, r) =>
        ((runBookings (r, st.2 + 1) qs).1,
          Except.ok a :: (runBookings (r, st.2 + 1) qs).2)
      | Except.error e =>
        ((runBookings st qs).1, Except.error e :: (runBookings st qs).2) := by
  rfl

theorem successCount_cons_ok (a : Appointment)
    (l : List (Except DbError Appointment)) :
    successCount (Except.ok a :: l) = successCount l + 1 := by
  simp [successCount, List.filter_cons, isOkResult]

theorem successCount_cons_error (e : DbError)
    (l : List (Except DbError Appointment)) :
    successCount (Except.error e :: l) = successCount l := by
  simp [successCount, List.filter_cons, isOkResult]

/-- The only failure `insertAppointment` produces is the 23505
constraint violation: a losing attempt is never silently dropped. -/
theorem runBookings_errors (st : RegState) (reqs : List BookingRequest) :
    ∀ res ∈ (runBookings st reqs).2, isOkResult res = false →
      res = Except.error uniqueViolation := by
  induction reqs generalizing st with
  | nil =>
    rw [runBookings_nil]
    intro res hres
    exact absurd hres (List.not_mem_nil res)
  | cons q qs ih =>
    rw [runBookings_cons]
    by_cases hslot : slotTaken st.1 q.professionalId q.date q.time = true
    · rw [insertAppointment_conflict st.1 st.2 q hslot]
      intro res hres hok
      rcases List.mem_cons.mp hres with rfl | hres'
      · rfl
      · exact ih st res hres' hok
    · have hfalse : slotTaken st.1 q.professionalId q.date q.time = false :=
        Bool.not_eq_true _ ▸ hslot
      rw [insertAppointment_ok st.1 st.2 q hfalse]
      intro res hres hok
      rcases List.mem_cons.mp hres with rfl | hres'
      · exact absurd hok (by simp [isOkResult])
      · exact ih (mkAppointment st.2 q :: st.1, st.2 + 1) res hres' hok

/-- Once the slot is occupied by an active row, every later attempt at
that slot fails. -/
theorem runBookings_taken (p d t : String) (st : RegState)
    (h : slotTaken st.1 p d t = true) (reqs : List BookingRequest)
    (hreqs : ∀ q ∈ reqs, q.professionalId = p ∧ q.date = d ∧ q.time = t) :
    successCount (runBookings st reqs).2 = 0 := by
  induction reqs generalizing st with
  | nil => rw [runBookings_nil]; rfl
  | cons q qs ih =>
    obtain ⟨hqp, hqd, hqt⟩ := hreqs q (List.mem_cons_self q qs)
    have hq : slotTaken st.1 q.professionalId q.date q.time = true := by
      rw [hqp, hqd, hqt]; exact h
    rw [runBookings_cons, insertAppointment_conflict st.1 st.2 q hq]
    show successCount (Except.error uniqueViolation :: (runBookings st qs).2) = 0
    rw [successCount_cons_error]
    exact ih st h fun q' hq' => hreqs q' (List.mem_cons_of_mem q hq')

/-- A freshly inserted booking occupies its slot. -/
theorem slotTaken_after_insert (st : RegState) (q : BookingRequest)
    (p d t : String) (hqp : q.professionalId = p) (hqd : q.date = d)
    (hqt : q.time = t) :
    slotTaken (mkAppointment st.2 q :: st.1) p d t = true :=
  (slotTaken_true_iff _ p d t).mpr
    ⟨mkAppointment st.2 q, List.mem_cons_self _ _,
      by simp [mkAppointment, hqp], by simp [mkAppointment, hqd],
      by simp [mkAppointment, hqt], rfl⟩

/-- Of any sequence of Booking Transaction attempts at one slot, at most
one succeeds. -/
theorem runBookings_atMostOne (p d t : String) (st : RegState)
    (reqs : List BookingRequest)
    (hreqs : ∀ q ∈ reqs, q.professionalId = p ∧ q.date = d ∧ q.time = t) :
    successCount (runBookings st reqs).2 ≤ 1 := by
  induction reqs generalizing st with
  | nil => rw [runBookings_nil]; exact Nat.zero_le 1
  | cons q qs ih =>
    obtain ⟨hqp, hqd, hqt⟩ := hreqs q (List.mem_cons_self q qs)
    have htail : ∀ q' ∈ qs, q'.professionalId = p ∧ q'.date = d ∧ q'.time = t :=
      fun q' hq' => hreqs q' (List.mem_cons_of_mem q hq')
    rw [runBookings_cons]
    by_cases hslot : slotTaken st.1 q.professionalId q.date q.time = true
    · rw [insertAppointment_conflict st.1 st.2 q hslot]
      show successCount (Except.error uniqueViolation :: (runBookings st qs).2) ≤ 1
      rw [successCount_cons_error]
      exact ih st htail
    · have hfalse : slotTaken st.1 q.professionalId q.date q.time = false :=
        Bool.not_eq_true _ ▸ hslot
      rw [insertAppointment_ok st.1 st.2 q hfalse]
      show successCount (Except.ok (mkAppointment st.2 q) ::
        (runBookings (mkAppointment st.2 q :: st.1, st.2 + 1) qs).2) ≤ 1
      rw [successCount_cons_ok,
        runBookings_taken p d t (mkAppointment st.2 q :: st.1, st.2 + 1)
          (slotTaken_after_insert st q p d t hqp hqd hqt) qs htail]

/-! ## Availability Query: the `get-booked-slots` function

`supabase/functions/get-booked-slots/index.ts` lines 19-33: select the
`time` column of all appointments with the given `professional_id` and
`date` and `status != 'cancelled'`, then map each row to
`a.time.substring(0, 5)`. -/

/-- `a.time.substring(0, 5)`: the HH:MM part of a stored `HH:MM:SS` time. -/
def hhmm (t : String) : String := t.take 5

/-- The row filter of the `get-booked-slots` query:
`.eq('professional_id', p).eq('date', d).neq('status', 'cancelled')`. -/
def matchesQuery (p d : String) (a : Appointment) : Bool :=
  a.professionalId == p && a.date == d && !isCancelled a.status

/-- The `bookedSlots` array of a successful `get-booked-slots` response. -/
def getBookedSlots (r : Registry) (p d : String) : List String :=
  (r.filter (matchesQuery p d)).map fun a => hhmm a.time

/-! ## The client booking flow of `TimeSelector`

Two generations of the component exist.  `unnamed/part_003` books
through `api.createAppointment` and sends a confirmation email;
`src/components/user/TimeSelector.tsx` inserts through the supabase
client directly.  Both share the slot catalog, the guard, the
conflict-vs-generic error split and the re-fetch on conflict. -/

/-- `const timeSlots = ['09:00', ..., '16:00']` — the fixed slot catalog. -/
def timeSlots : List String :=
  ["09:00", "10:00", "11:00", "12:00", "13:00", "14:00", "15:00", "16:00"]

/-- `fetchBookedSlots`: the `bookedSlots` state after the fetch — the
response list on success, and `[]` from the `catch` branch on failure
(the error is only logged to the console). -/
def fetchBookedSlotsState (result : Except String (List String)) : List String :=
  match result with
  | Except.ok slots => slots
  | Except.error _ => []

/-- `availableSlots = timeSlots.filter(slot => !bookedSlots.includes(slot)
&& !isSlotPast(slot))` — the slots the component renders as bookable. -/
def availableSlots (bookedSlots : List String) (isSlotPast : String → Bool) :
    List String :=
  timeSlots.filter fun slot => !bookedSlots.contains slot && !isSlotPast slot

/-- The conflict test of `TimeSelector.tsx` `handleBook`:
`error.message?.includes('duplicate') || error.code === '23505'`. -/
def isConflictError (e : DbError) : Bool :=
  strIncludes e.message "duplicate" || e.code == "23505"

/-- The user-visible toast variants of `handleBook`: the success toast,
the slot-taken toast (`Horário indisponível`) and the generic failure
toast (`Erro ao agendar`). -/
inductive ToastKind
  | success
  | slotJustTaken
  | genericError
deriving DecidableEq, Repr

/-- The toast shown by `TimeSelector.tsx` `handleBook` (lines 76-91)
when the insert failed with `error`. -/
def bookErrorToast (e : DbError) : ToastKind :=
  if isConflictError e then ToastKind.slotJustTaken else ToastKind.genericError

/-- The body `api.createAppointment` is called with in `unnamed/part_003`
(`user_id` comes from the caller's session, not the body). -/
structure CreateAppointmentData where
  professional_id : String
  procedure : String
  date : String
  time : String
deriving DecidableEq, Repr

/-- A request the `unnamed/part_003` booking flow can issue against the
backend.  `cancelRequest` exists in the API surface
(`ApiClient.cancelAppointment`) but is never issued by `handleBook`. -/
inductive ClientOp
  | createAppointment (data : CreateAppointmentData)
  | readBookedSlots (professionalId date : String)
  | sendConfirmationEmail
  | cancelRequest (id : Nat)
deriving DecidableEq, Repr

/-- The conflict test of `unnamed/part_003` `handleBook` (line 79):
`error.message?.includes('Horário já ocupado') ||
error.message?.includes('409')`. -/
def isConflictMessage (msg : String) : Bool :=
  strIncludes msg "Horário já ocupado" || strIncludes msg "409"

/-- What one run of `handleBook` did: the backend requests it issued in
order, the toast it showed, and whether `onComplete()` ran. -/
structure FlowOutcome where
  ops : List ClientOp
  toast : Option ToastKind
  completedCalled : Bool
deriving DecidableEq, Repr

/-- `handleBook` of `unnamed/part_003` (lines 45-96), as a function of
the component state and of the results the two backend calls return:

* guard `if (!selectedTime || !profile) return;`;
* `api.createAppointment({professional_id, procedure, date, time:
  selectedTime + ':00'})`;
* on success an inner `try { api.sendConfirmationEmail(...) } catch
  { console.error(...) }` whose failure is swallowed, then the success
  toast and `onComplete()`;
* on a conflict-classified error the slot-taken toast and
  `fetchBookedSlots()` (which re-reads the same professional and date);
* on any other error the generic toast. -/
def handleBook (profile : Option String) (selectedTime : Option String)
    (professionalId specialty dateStr : String)
    (createResult : Except String Unit) (emailResult : Except String Unit) :
    FlowOutcome :=
  match selectedTime, profile with
  | none, _ => { ops := [], toast := none, completedCalled := false }
  | some _, none => { ops := [], toast := none, completedCalled := false }
  | some t, some _ =>
    let data : CreateAppointmentData :=
      { professional_id := professionalId, procedure := specialty,
        date := dateStr, time := t ++ ":00" }
    match createResult with
    | Except.ok _ =>
      { ops := [ClientOp.createAppointment data, ClientOp.sendConfirmationEmail]
        toast := some ToastKind.success
        completedCalled := true }
    | Except.error msg =>
      if isConflictMessage msg then
        { ops := [ClientOp.createAppointment data,
                  ClientOp.readBookedSlots professionalId dateStr]
          toast := some ToastKind.slotJustTaken
          completedCalled := false }
      else
        { ops := [ClientOp.createAppointment data]
          toast := some ToastKind.genericError
          completedCalled := false }

/-- The spec's §4.2 input contract, stated from its words: professional
identifier, date, time, requesting user identifier and
procedure/specialty label are all non-empty. -/
def specInputsValid (professionalId dateStr timeStr userId procedure : String) :
    Prop :=
  professionalId ≠ "" ∧ dateStr ≠ "" ∧ timeStr ≠ "" ∧ userId ≠ "" ∧ procedure ≠ ""

instance (p d t u pr : String) : Decidable (specInputsValid p d t u pr) := by
  unfold specInputsValid; infer_instance

theorem isCancelled_eq_false_iff (s : Status) :
    isCancelled s = false ↔ s ≠ Status.cancelled := by
  cases s <;> simp [isCancelled]

theorem matchesQuery_spec (p d : String) (a : Appointment)
    (h : matchesQuery p d a = true) :
    a.professionalId = p ∧ a.date = d ∧ isActive a = true := by
  unfold matchesQuery at h
  simp only [Bool.and_eq_true, beq_iff_eq] at h
  exact ⟨h.1.1, h.1.2, h.2⟩

/-! ## The claims -/

/-- Claim C1: for every sequence of Booking Transaction attempts (inserts
of a new appointment with status scheduled) targeting the same
(professional, date, time), at most one attempt succeeds; every reachable
registry state contains at most one appointment per (professional, date,
time) whose status is not cancelled, and every losing attempt receives
the SlotConflict error (the 23505 constraint violation) rather than
being silently dropped or also succeeding. -/
theorem booking_uniqueness_invariant (st : RegState) (hwf : Wf st)
    (ops : List Op) (p d t : String) (reqs : List BookingRequest)
    (hreqs : ∀ q ∈ reqs, q.professionalId = p ∧ q.date = d ∧ q.time = t) :
    uniqueActive (applyOps st ops).1 ∧
    successCount (runBookings st reqs).2 ≤ 1 ∧
    ∀ res ∈ (runBookings st reqs).2, isOkResult res = false →
      res = Except.error uniqueViolation :=
  ⟨(wf_applyOps st hwf ops).1, runBookings_atMostOne p d t st reqs hreqs,
    runBookings_errors st reqs⟩

theorem booking_uniqueness_invariant_witness :
    uniqueActive (applyOps ([], 0)
      [Op.book ⟨"U1", "P1", "clean", "2025-06-10", "09:00:00"⟩]).1 ∧
    successCount (runBookings ([], 0)
      [⟨"U1", "P1", "clean", "2025-06-10", "09:00:00"⟩,
        ⟨"U2", "P1", "clean", "2025-06-10", "09:00:00"⟩]).2 ≤ 1 ∧
    ∀ res ∈ (runBookings ([], 0)
      [⟨"U1", "P1", "clean", "2025-06-10", "09:00:00"⟩,
        ⟨"U2", "P1", "clean", "2025-06-10", "09:00:00"⟩]).2,
      isOkResult res = false → res = Except.error uniqueViolation :=
  booking_uniqueness_invariant ([], 0) (by decide)
    [Op.book ⟨"U1", "P1", "clean", "2025-06-10", "09:00:00"⟩]
    "P1" "2025-06-10" "09:00:00"
    [⟨"U1", "P1", "clean", "2025-06-10", "09:00:00"⟩,
      ⟨"U2", "P1", "clean", "2025-06-10", "09:00:00"⟩] (by decide)

/-- Claim C2: in every well-formed registry state holding an active
appointment at a slot, cancelling that appointment succeeds and a
subsequent Booking Transaction for the same (professional, date, time)
by any user succeeds — the cancelled row no longer counts against the
partial uniqueness constraint. -/
theorem cancellation_frees_slot (st : RegState) (hwf : Wf st)
    (a : Appointment) (ha : a ∈ st.1) (hact : isActive a = true)
    (req : BookingRequest) (hp : req.professionalId = a.professionalId)
    (hd : req.date = a.date) (ht : req.time = a.time) (n : Nat) :
    ∃ r', cancelAppointment st.1 a.id = Except.ok r' ∧
      insertAppointment r' n req =
        Except.ok (mkAppointment n req, mkAppointment n req :: r') := by
  obtain ⟨hu, hnd, hf⟩ := hwf
  have hfind := find_by_id st.1 hnd a ha
  have hcancel : cancelAppointment st.1 a.id =
      Except.ok (st.1.map (setRowStatus a.id Status.cancelled)) := by
    unfold cancelAppointment
    rw [updateStatus_found st.1 a.id Status.cancelled a hfind]
    simp [isCancelled]
  refine ⟨_, hcancel, ?_⟩
  apply insertAppointment_ok
  rw [hp, hd, ht, slotTaken_false_iff]
  intro b hb hbp hbd hbt
  obtain ⟨x, hx, rfl⟩ := List.mem_map.mp hb
  simp only [setRowStatus_professionalId, setRowStatus_date,
    setRowStatus_time] at hbp hbd hbt
  rw [isActive_setRowStatus]
  by_cases hxid : x.id = a.id
  · rw [if_pos hxid]; rfl
  · rw [if_neg hxid]
    rcases Bool.eq_false_or_eq_true (isActive x) with hxt | hxf
    · exact absurd (hu x hx a ha hxt hact hbp hbd hbt) hxid
    · exact hxf

theorem cancellation_frees_slot_witness :
    ∃ r', cancelAppointment
        [⟨7, "U1", "P1", "clean", "2025-06-10", "09:00:00", Status.scheduled⟩]
        7 = Except.ok r' ∧
      insertAppointment r' 8 ⟨"U2", "P1", "clean", "2025-06-10", "09:00:00"⟩ =
        Except.ok (mkAppointment 8 ⟨"U2", "P1", "clean", "2025-06-10", "09:00:00"⟩,
          mkAppointment 8 ⟨"U2", "P1", "clean", "2025-06-10", "09:00:00"⟩ :: r') :=
  cancellation_frees_slot
    ([⟨7, "U1", "P1", "clean", "2025-06-10", "09:00:00", Status.scheduled⟩], 8)
    (by decide)
    ⟨7, "U1", "P1", "clean", "2025-06-10", "09:00:00", Status.scheduled⟩
    (by decide) (by decide)
    ⟨"U2", "P1", "clean", "2025-06-10", "09:00:00"⟩ rfl rfl rfl 8

theorem mem_getBookedSlots (r : Registry) (p d t : String) :
    t ∈ getBookedSlots r p d ↔
      ∃ a ∈ r, matchesQuery p d a = true ∧ hhmm a.time = t := by
  unfold getBookedSlots
  simp [List.mem_map, List.mem_filter, and_assoc]

/-- Claim C3: the Availability Query for a professional and date returns
a list of times containing T exactly when some appointment of that
professional on that date with status not cancelled has T as the HH:MM
part of its time — it selects by professional and date, excludes exactly
the cancelled rows (completed and no-show rows still count as taken),
and projects each matching row to its time component. -/
theorem availability_reflects_active (r : Registry) (p d t : String) :
    t ∈ getBookedSlots r p d ↔
      ∃ a ∈ r, a.professionalId = p ∧ a.date = d ∧
        a.status ≠ Status.cancelled ∧ hhmm a.time = t := by
  rw [mem_getBookedSlots]
  constructor
  · rintro ⟨a, ha, hm, hT⟩
    obtain ⟨hp, hd, hact⟩ := matchesQuery_spec p d a hm
    exact ⟨a, ha, hp, hd, (isActive_iff a).mp hact, hT⟩
  · rintro ⟨a, ha, hp, hd, hc, hT⟩
    refine ⟨a, ha, ?_, hT⟩
    unfold matchesQuery
    simp [hp, hd, (isCancelled_eq_false_iff a.status).mpr hc]

/-- Claim C4: when the Booking Transaction's insert is rejected by the
partial uniqueness constraint, the resulting error carries the
constraint-violation signal (SQLSTATE 23505 / a duplicate-key message),
`handleBook` classifies exactly such errors as the slot-taken conflict,
and every other error takes the generic-failure branch — so the
slot-taken conflict and a generic storage failure produce different
user-visible toasts. -/
theorem conflict_error_distinguishable (r : Registry) (n : Nat)
    (req : BookingRequest)
    (htaken : slotTaken r req.professionalId req.date req.time = true) :
    insertAppointment r n req = Except.error uniqueViolation ∧
    isConflictError uniqueViolation = true ∧
    bookErrorToast uniqueViolation = ToastKind.slotJustTaken ∧
    ∀ e : DbError, isConflictError e = false →
      bookErrorToast e = ToastKind.genericError ∧
      bookErrorToast e ≠ ToastKind.slotJustTaken := by
  refine ⟨insertAppointment_conflict r n req htaken, by decide, by decide, ?_⟩
  intro e he
  unfold bookErrorToast
  rw [he]
  exact ⟨rfl, by decide⟩

theorem conflict_error_distinguishable_witness :
    insertAppointment
        [⟨0, "U1", "P1", "clean", "2025-06-10", "09:00:00", Status.scheduled⟩]
        1 ⟨"U2", "P1", "clean", "2025-06-10", "09:00:00"⟩ =
      Except.error uniqueViolation ∧
    isConflictError uniqueViolation = true ∧
    bookErrorToast uniqueViolation = ToastKind.slotJustTaken ∧
    ∀ e : DbError, isConflictError e = false →
      bookErrorToast e = ToastKind.genericError ∧
      bookErrorToast e ≠ ToastKind.slotJustTaken :=
  conflict_error_distinguishable
    [⟨0, "U1", "P1", "clean", "2025-06-10", "09:00:00", Status.scheduled⟩]
    1 ⟨"U2", "P1", "clean", "2025-06-10", "09:00:00"⟩ (by decide)

/-- Claim C5: a booking attempt that fails with a conflict-classified
error makes `handleBook` re-run the Availability Query for the same
professional and date (and nothing else) before control returns to the
user; a booking attempt that fails with any other error performs no
re-query and no automatic retry — in both cases exactly one insert was
issued, for the originally selected slot. -/
theorem conflict_triggers_refetch (prof t professionalId specialty dateStr
    msg : String) (em : Except String Unit) :
    (isConflictMessage msg = true →
      handleBook (some prof) (some t) professionalId specialty dateStr
          (Except.error msg) em =
        { ops := [ClientOp.createAppointment
              ⟨professionalId, specialty, dateStr, t ++ ":00"⟩,
            ClientOp.readBookedSlots professionalId dateStr]
          toast := some ToastKind.slotJustTaken
          completedCalled := false }) ∧
    (isConflictMessage msg = false →
      handleBook (some prof) (some t) professionalId specialty dateStr
          (Except.error msg) em =
        { ops := [ClientOp.createAppointment
              ⟨professionalId, specialty, dateStr, t ++ ":00"⟩]
          toast := some ToastKind.genericError
          completedCalled := false }) := by
  constructor <;> intro h <;> simp [handleBook, h]

theorem conflict_triggers_refetch_witness :
    handleBook (some "U1") (some "09:00") "P1" "clean" "2025-06-10"
        (Except.error "409: Horário já ocupado") (Except.ok ()) =
      { ops := [ClientOp.createAppointment ⟨"P1", "clean", "2025-06-10", "09:00:00"⟩,
          ClientOp.readBookedSlots "P1" "2025-06-10"]
        toast := some ToastKind.slotJustTaken
        completedCalled := false } :=
  (conflict_triggers_refetch "U1" "09:00" "P1" "clean" "2025-06-10"
    "409: Horário já ocupado" (Except.ok ())).1 (by decide)

/-- Claim C6: on a well-formed registry, updating a cancelled appointment
row back to an active status succeeds exactly when no other active
appointment occupies its (professional, date, time), and when another
active booking has taken the slot the update is rejected with the very
same 23505 constraint violation an ordinary insert conflict produces —
the partial uniqueness constraint is enforced on updates, not only on
inserts. -/
theorem uncancel_reapplies_constraint (st : RegState) (hwf : Wf st)
    (a : Appointment) (ha : a ∈ st.1) (hcanc : a.status = Status.cancelled)
    (s : Status) (hs : s ≠ Status.cancelled) :
    (otherActiveAtSlot st.1 a.id a.professionalId a.date a.time = false →
      updateStatus st.1 a.id s = Except.ok (st.1.map (setRowStatus a.id s))) ∧
    (otherActiveAtSlot st.1 a.id a.professionalId a.date a.time = true →
      updateStatus st.1 a.id s = Except.error uniqueViolation) ∧
    ∀ (r : Registry) (n : Nat) (req : BookingRequest),
      slotTaken r req.professionalId req.date req.time = true →
      insertAppointment r n req = Except.error uniqueViolation := by
  obtain ⟨hu, hnd, hf⟩ := hwf
  have hfind := find_by_id st.1 hnd a ha
  have hsc : isCancelled s = false := (isCancelled_eq_false_iff s).mpr hs
  refine ⟨?_, ?_, fun r n req h => insertAppointment_conflict r n req h⟩
  · intro hother
    rw [updateStatus_found st.1 a.id s a hfind]
    simp [hsc, hother]
  · intro hother
    rw [updateStatus_found st.1 a.id s a hfind]
    simp [hsc, hother]

theorem uncancel_reapplies_constraint_witness :
    updateStatus
        [⟨0, "U1", "P1", "clean", "2025-06-10", "09:00:00", Status.cancelled⟩,
          ⟨1, "U2", "P1", "clean", "2025-06-10", "09:00:00", Status.scheduled⟩]
        0 Status.scheduled = Except.error uniqueViolation :=
  (uncancel_reapplies_constraint
    ([⟨0, "U1", "P1", "clean", "2025-06-10", "09:00:00", Status.cancelled⟩,
       ⟨1, "U2", "P1", "clean", "2025-06-10", "09:00:00", Status.scheduled⟩], 2)
    (by decide)
    ⟨0, "U1", "P1", "clean", "2025-06-10", "09:00:00", Status.cancelled⟩
    (by decide) rfl Status.scheduled (by decide)).2.1 (by decide)

/-- Claim C7, behavior of the code at the failing input: when the
Availability Query fails, `fetchBookedSlots` catches the error, only
logs it, and sets `bookedSlots` to the empty list, so the component
renders every catalog slot (here: of a non-today date, where no slot is
past) as available — the full slot catalog, i.e. the day is treated as
fully open, not fully booked, and no error is surfaced to the user. -/
theorem fetch_failure_renders_full_catalog :
    fetchBookedSlotsState (Except.error "StorageError") = [] ∧
    availableSlots (fetchBookedSlotsState (Except.error "StorageError"))
      (fun _ => false) = timeSlots ∧
    timeSlots.length = 8 := by
  exact ⟨rfl, by decide, rfl⟩

/-- Claim C8, counterexample: a booking request with an empty
professional identifier is not well-formed in the sense of §4.2, yet
`handleBook` still issues the insert round-trip (storage access occurs)
and surfaces the failure through the generic error branch — no
ValidationError is raised before storage access. -/
theorem validation_claim_counterexample :
    ¬ specInputsValid "" "2025-06-10" "09:00" "U1" "clean" ∧
    (handleBook (some "U1") (some "09:00") "" "clean" "2025-06-10"
        (Except.error "invalid input syntax for type uuid") (Except.ok ())).ops =
      [ClientOp.createAppointment ⟨"", "clean", "2025-06-10", "09:00:00"⟩] ∧
    (handleBook (some "U1") (some "09:00") "" "clean" "2025-06-10"
        (Except.error "invalid input syntax for type uuid") (Except.ok ())).toast =
      some ToastKind.genericError := by
  exact ⟨by decide, by decide, by decide⟩

/-- Claim C8, amended: the only checks performed before storage access
are that a time is selected and a profile is signed in — when either is
missing the flow silently does nothing (no storage access, but also no
ValidationError toast); the remaining inputs (professional identifier,
date, procedure label) are not validated, and a request with any of them
empty or malformed still performs the insert round-trip first. -/
theorem booking_guard_incomplete (profile selectedTime : Option String)
    (professionalId specialty dateStr : String)
    (createResult emailResult : Except String Unit) :
    ((selectedTime = none ∨ profile = none) →
      handleBook profile selectedTime professionalId specialty dateStr
          createResult emailResult =
        { ops := [], toast := none, completedCalled := false }) ∧
    (∀ t prof, selectedTime = some t → profile = some prof →
      (handleBook profile selectedTime professionalId specialty dateStr
          createResult emailResult).ops.head? =
        some (ClientOp.createAppointment
          ⟨professionalId, specialty, dateStr, t ++ ":00"⟩)) := by
  constructor
  · rintro (rfl | rfl)
    · rfl
    · cases selectedTime <;> rfl
  · rintro t prof rfl rfl
    cases createResult with
    | ok u => rfl
    | error msg =>
      by_cases h : isConflictMessage msg = true
      · simp [handleBook, h]
      · have hf : isConflictMessage msg = false := Bool.not_eq_true _ ▸ h
        simp [handleBook, hf]

theorem booking_guard_incomplete_witness :
    handleBook none (some "09:00") "P1" "clean" "2025-06-10"
        (Except.ok ()) (Except.ok ()) =
      { ops := [], toast := none, completedCalled := false } :=
  (booking_guard_incomplete none (some "09:00") "P1" "clean" "2025-06-10"
    (Except.ok ()) (Except.ok ())).1 (Or.inr rfl)

/-- Claim C9: `handleBook` dispatches the confirmation email only after
the booking insert has succeeded (the email request appears only in the
success trace, after the insert); the flow's outcome is the same
whatever the email dispatch returns, so an email failure never prevents
the success path (success toast, `onComplete()`) from completing; and no
branch ever issues a cancellation that would undo the created
appointment. -/
theorem email_after_success_never_blocks (profile selectedTime : Option String)
    (professionalId specialty dateStr : String)
    (createResult emailResult : Except String Unit) :
    (ClientOp.sendConfirmationEmail ∈
        (handleBook profile selectedTime professionalId specialty dateStr
          createResult emailResult).ops →
      createResult = Except.ok () ∧
      ∃ data, (handleBook profile selectedTime professionalId specialty dateStr
          createResult emailResult).ops =
        [ClientOp.createAppointment data, ClientOp.sendConfirmationEmail]) ∧
    (handleBook profile selectedTime professionalId specialty dateStr
        createResult emailResult =
      handleBook profile selectedTime professionalId specialty dateStr
        createResult (Except.ok ())) ∧
    (∀ t prof, selectedTime = some t → profile = some prof →
      createResult = Except.ok () →
      (handleBook profile selectedTime professionalId specialty dateStr
          createResult emailResult).completedCalled = true ∧
      (handleBook profile selectedTime professionalId specialty dateStr
          createResult emailResult).toast = some ToastKind.success) ∧
    ∀ i, ClientOp.cancelRequest i ∉
      (handleBook profile selectedTime professionalId specialty dateStr
        createResult emailResult).ops := by
  rcases selectedTime with _ | t
  · exact ⟨by intro h; simp [handleBook] at h, rfl,
      by rintro t prof h; exact absurd h (by simp),
      by intro i; simp [handleBook]⟩
  rcases profile with _ | prof
  · exact ⟨by intro h; simp [handleBook] at h, rfl,
      by rintro t' prof' h h'; exact absurd h' (by simp),
      by intro i; simp [handleBook]⟩
  cases createResult with
  | ok u =>
    refine ⟨?_, rfl, ?_, ?_⟩
    · intro hmem
      exact ⟨rfl, ⟨professionalId, specialty, dateStr, t ++ ":00"⟩, rfl⟩
    · intro t' prof' ht hp hc
      exact ⟨rfl, rfl⟩
    · intro i
      simp [handleBook]
  | error msg =>
    refine ⟨?_, rfl, ?_, ?_⟩
    · intro hmem
      exfalso
      by_cases h : isConflictMessage msg = true
      · simp [handleBook, h] at hmem
      · have hf : isConflictMessage msg = false := Bool.not_eq_true _ ▸ h
        simp [handleBook, hf] at hmem
    · intro t' prof' ht hp hc
      exact absurd hc (by simp)
    · intro i
      by_cases h : isConflictMessage msg = true
      · simp [handleBook, h]
      · have hf : isConflictMessage msg = false := Bool.not_eq_true _ ▸ h
        simp [handleBook, hf]

theorem email_after_success_never_blocks_witness :
    (handleBook (some "U1") (some "09:00") "P1" "clean" "2025-06-10"
        (Except.ok ()) (Except.error "smtp down")).completedCalled = true ∧
    (handleBook (some "U1") (some "09:00") "P1" "clean" "2025-06-10"
        (Except.ok ()) (Except.error "smtp down")).toast =
      some ToastKind.success :=
  (email_after_success_never_blocks (some "U1") (some "09:00") "P1" "clean"
    "2025-06-10" (Except.ok ()) (Except.error "smtp down")).2.2.1
    "09:00" "U1" rfl rfl rfl

/-- Claim C10, counterexample: two active rows of the same professional
and date whose stored times differ only in the seconds field satisfy the
partial uniqueness invariant (their full time values differ), yet the
`get-booked-slots` response lists their common HH:MM prefix twice — so
duplicate-freeness of the response does not hold exactly when the
invariant holds on the queried rows. -/
theorem bookedSlots_dupfree_counterexample :
    uniqueActive
      [⟨0, "U1", "P1", "clean", "2025-06-10", "09:00:00", Status.scheduled⟩,
        ⟨1, "U2", "P1", "clean", "2025-06-10", "09:00:30", Status.scheduled⟩] ∧
    idsNodup
      [⟨0, "U1", "P1", "clean", "2025-06-10", "09:00:00", Status.scheduled⟩,
        ⟨1, "U2", "P1", "clean", "2025-06-10", "09:00:30", Status.scheduled⟩] ∧
    getBookedSlots
      [⟨0, "U1", "P1", "clean", "2025-06-10", "09:00:00", Status.scheduled⟩,
        ⟨1, "U2", "P1", "clean", "2025-06-10", "09:00:30", Status.scheduled⟩]
      "P1" "2025-06-10" = ["09:00", "09:00"] ∧
    ¬ (getBookedSlots
      [⟨0, "U1", "P1", "clean", "2025-06-10", "09:00:00", Status.scheduled⟩,
        ⟨1, "U2", "P1", "clean", "2025-06-10", "09:00:30", Status.scheduled⟩]
      "P1" "2025-06-10").Nodup := by
  exact ⟨by decide, by decide, by decide, by decide⟩

/-- Claim C10, amended: each element of a successful `get-booked-slots`
response is the first five characters (the HH:MM part) of a stored
appointment time, the list has one entry per non-cancelled row of that
professional and date with no deduplication step, and it is
duplicate-free exactly when no two queried rows share an HH:MM time
value — which follows from the partial uniqueness invariant whenever
distinct stored times of the queried rows have distinct HH:MM parts (as
for the second-less times the booking flow writes), but not for
arbitrary stored times. -/
theorem bookedSlots_shape (r : Registry) (p d : String)
    (hu : uniqueActive r) (hnd : idsNodup r)
    (hinj : ∀ a ∈ r, ∀ b ∈ r, matchesQuery p d a = true →
      matchesQuery p d b = true → hhmm a.time = hhmm b.time → a.time = b.time) :
    (∀ t ∈ getBookedSlots r p d, ∃ a ∈ r, matchesQuery p d a = true ∧
      t = hhmm a.time) ∧
    (getBookedSlots r p d).length = (r.filter (matchesQuery p d)).length ∧
    ((getBookedSlots r p d).Nodup ↔
      (r.filter (matchesQuery p d)).Pairwise fun a b => hhmm a.time ≠ hhmm b.time) ∧
    (getBookedSlots r p d).Nodup := by
  have hiff : (getBookedSlots r p d).Nodup ↔
      (r.filter (matchesQuery p d)).Pairwise
        fun a b => hhmm a.time ≠ hhmm b.time := by
    constructor
    · intro h; exact List.pairwise_map.mp h
    · intro h; exact List.pairwise_map.mpr h
  refine ⟨?_, ?_, hiff, ?_⟩
  · intro t ht
    obtain ⟨a, ha, hm, hT⟩ := (mem_getBookedSlots r p d t).mp ht
    exact ⟨a, ha, hm, hT.symm⟩
  · exact List.length_map _ _
  · apply hiff.mpr
    have hids : (r.filter (matchesQuery p d)).Pairwise
        fun a b => a.id ≠ b.id :=
      List.Pairwise.sublist (List.filter_sublist r) (List.pairwise_map.mp hnd)
    refine List.Pairwise.imp_of_mem ?_ hids
    intro a b haf hbf hid heq
    have ha := List.mem_filter.mp haf
    have hb := List.mem_filter.mp hbf
    obtain ⟨hap, had, haact⟩ := matchesQuery_spec p d a ha.2
    obtain ⟨hbp, hbd, hbact⟩ := matchesQuery_spec p d b hb.2
    have htime : a.time = b.time := hinj a ha.1 b hb.1 ha.2 hb.2 heq
    exact hid (hu a ha.1 b hb.1 haact hbact (hap.trans hbp.symm)
      (had.trans hbd.symm) htime)

theorem bookedSlots_shape_witness :
    (∀ t ∈ getBookedSlots
        [⟨0, "U1", "P1", "clean", "2025-06-10", "09:00:00", Status.scheduled⟩,
          ⟨1, "U2", "P1", "clean", "2025-06-10", "10:00:00", Status.completed⟩,
          ⟨2, "U3", "P1", "clean", "2025-06-10", "11:00:00", Status.cancelled⟩]
        "P1" "2025-06-10",
      ∃ a ∈ [⟨0, "U1", "P1", "clean", "2025-06-10", "09:00:00", Status.scheduled⟩,
          ⟨1, "U2", "P1", "clean", "2025-06-10", "10:00:00", Status.completed⟩,
          ⟨2, "U3", "P1", "clean", "2025-06-10", "11:00:00", Status.cancelled⟩],
        matchesQuery "P1" "2025-06-10" a = true ∧ t = hhmm a.time) ∧
    (getBookedSlots
        [⟨0, "U1", "P1", "clean", "2025-06-10", "09:00:00", Status.scheduled⟩,
          ⟨1, "U2", "P1", "clean", "2025-06-10", "10:00:00", Status.completed⟩,
          ⟨2, "U3", "P1", "clean", "2025-06-10", "11:00:00", Status.cancelled⟩]
        "P1" "2025-06-10").length =
      (List.filter (matchesQuery "P1" "2025-06-10")
        [⟨0, "U1", "P1", "clean", "2025-06-10", "09:00:00", Status.scheduled⟩,
          ⟨1, "U2", "P1", "clean", "2025-06-10", "10:00:00", Status.completed⟩,
          ⟨2, "U3", "P1", "clean", "2025-06-10", "11:00:00", Status.cancelled⟩]).length ∧
    ((getBookedSlots
        [⟨0, "U1", "P1", "clean", "2025-06-10", "09:00:00", Status.scheduled⟩,
          ⟨1, "U2", "P1", "clean", "2025-06-10", "10:00:00", Status.completed⟩,
          ⟨2, "U3", "P1", "clean", "2025-06-10", "11:00:00", Status.cancelled⟩]
        "P1" "2025-06-10").Nodup ↔
      (List.filter (matchesQuery "P1" "2025-06-10")
        [⟨0, "U1", "P1", "clean", "2025-06-10", "09:00:00", Status.scheduled⟩,
          ⟨1, "U2", "P1", "clean", "2025-06-10", "10:00:00", Status.completed⟩,
          ⟨2, "U3", "P1", "clean", "2025-06-10", "11:00:00", Status.cancelled⟩]).Pairwise
        fun a b => hhmm a.time ≠ hhmm b.time) ∧
    (getBookedSlots
        [⟨0, "U1", "P1", "clean", "2025-06-10", "09:00:00", Status.scheduled⟩,
          ⟨1, "U2", "P1", "clean", "2025-06-10", "10:00:00", Status.completed⟩,
          ⟨2, "U3", "P1", "clean", "2025-06-10", "11:00:00", Status.cancelled⟩]
        "P1" "2025-06-10").Nodup :=
  bookedSlots_shape
    [⟨0, "U1", "P1", "clean", "2025-06-10", "09:00:00", Status.scheduled⟩,
      ⟨1, "U2", "P1", "clean", "2025-06-10", "10:00:00", Status.completed⟩,
      ⟨2, "U3", "P1", "clean", "2025-06-10", "11:00:00", Status.cancelled⟩]
    "P1" "2025-06-10" (by decide) (by decide) (by decide)

end FriendlyGreeting
